import Mathlib

/-!
Shallow embedding of the GEE-Oil-Estimations repository (polygon acquisition,
merge/deduplication, weekly compositing configuration) together with proofs of
the specification's testable properties.

Conventions used throughout the embedding:
* geographic coordinates are modelled with exact integer arithmetic (`Int`),
  so geometric predicates (orientation, area, intersection) are decidable;
* calendar dates are modelled by their proleptic-Gregorian ordinal
  (days since 0001-01-00, exactly the value Python's `date.toordinal` returns),
  so `timedelta(days = k)` is addition of `k`;
* effectful code (network fetches, remote assets, the script body) is modelled
  by explicit outcome oracles and by returning traces of the observable
  actions; exceptions escaping a function are modelled with `Except`.
-/

namespace GEEOil

/-! ## GeoJSON property values and features (merge_tanker_jsons.py) -/

/-- A value stored in a GeoJSON property mapping.  `vnull` plays the role of
Python's `None`; `dict.get` on a missing key also yields `None`, so both cases
collapse to `vnull` in `pyGet`. -/
inductive PropValue where
  | vint (n : Int)
  | vstr (s : String)
  | vnull
deriving DecidableEq

def tankIdKey : String := "tank_id"

def locationKey : String := "location"

def contentKey : String := "content"

def substanceKey : String := "substance"

/-- A GeoJSON feature: a geometry (of arbitrary type `γ`, never inspected by
the merger) and an ordered property mapping. -/
structure Feature (γ : Type) where
  geometry : γ
  properties : List (String × PropValue)
deriving DecidableEq

/-- Python `properties.get(key)`: the stored value when the key is present,
`None` (here `vnull`) when absent. -/
def pyGet (props : List (String × PropValue)) (k : String) : PropValue :=
  match props.lookup k with
  | some v => v
  | none => PropValue.vnull

/-- The deduplication key used by `merge_tanker_jsons.py`:
`feature['properties'].get('tank_id')`. -/
def tankKey {γ : Type} (f : Feature γ) : PropValue := pyGet f.properties tankIdKey

/-- Boolean test used when stating properties about deduplication keys. -/
def keyMatches {γ : Type} (k : PropValue) (f : Feature γ) : Bool :=
  decide (tankKey f = k)

/-- The dedup loop of `merge_tanker_jsons.py` (lines 18-25): walk the combined
feature list, keep a feature only when its `tank_id` has not been seen, and
record the id as seen when the feature is kept. -/
def uniqueFeaturesAux {γ : Type} (seen : List PropValue) :
    List (Feature γ) → List (Feature γ)
  | [] => []
  | f :: rest =>
    if tankKey f ∈ seen then uniqueFeaturesAux seen rest
    else f :: uniqueFeaturesAux (tankKey f :: seen) rest

/-- `unique_features` from `merge_tanker_jsons.py`: first-wins deduplication
of the concatenated feature lists, starting from an empty seen set. -/
def unique_features {γ : Type} (allFeatures : List (Feature γ)) : List (Feature γ) :=
  uniqueFeaturesAux [] allFeatures

/-- Specification-side restatement of CollectionMerger (spec section 4.5):
keep the first polygon encountered for each `tank_id` and drop every
subsequent polygon sharing that id.  Used to compare `unique_features`
against the spec's words. -/
def specFirstWins {γ : Type} : List (Feature γ) → List (Feature γ)
  | [] => []
  | f :: rest =>
    f :: specFirstWins (rest.filter (fun g => decide (tankKey g ≠ tankKey f)))
termination_by l => l.length
decreasing_by
  simp only [List.length_cons]
  exact Nat.lt_succ_of_le (List.length_filter_le _ _)

/-! ## Calendar model (working_weekly_data.py configuration) -/

/-- Gregorian leap year rule, as implemented by Python's `datetime`. -/
def isLeap (y : Nat) : Bool :=
  (y % 4 == 0 && y % 100 != 0) || y % 400 == 0

/-- Number of days in month `m` of year `y` (months are 1-based). -/
def daysInMonth (y m : Nat) : Nat :=
  if m = 2 then (if isLeap y then 29 else 28)
  else if m = 4 ∨ m = 6 ∨ m = 9 ∨ m = 11 then 30
  else 31

/-- Days in year `y` strictly before month `m`. -/
def daysBeforeMonth (y m : Nat) : Nat :=
  (List.range (m - 1)).foldl (fun acc i => acc + daysInMonth y (i + 1)) 0

/-- Python `date(y, m, d).toordinal()`: day count since 0001-01-00 in the
proleptic Gregorian calendar. -/
def toOrdinal (y m d : Nat) : Nat :=
  365 * (y - 1) + (y - 1) / 4 - (y - 1) / 100 + (y - 1) / 400
    + daysBeforeMonth y m + d

/-- Python `date.weekday()`: Monday = 0 ... Sunday = 6.  Ordinal 1
(0001-01-01) is a Monday. -/
def pyWeekday (ordinal : Nat) : Nat := (ordinal + 6) % 7

/-- `EIA_RELEASE_WEEKDAY = 2` (Wednesday) from working_weekly_data.py. -/
def EIA_RELEASE_WEEKDAY : Nat := 2

/-- `START_DATE = datetime(2024, 1, 3)` as an ordinal. -/
def START_DATE : Nat := toOrdinal 2024 1 3

/-- `END_DATE = datetime(2024, 3, 1)` as an ordinal. -/
def END_DATE : Nat := toOrdinal 2024 3 1

/-- `COMPOSITE_INTERVAL_DAYS = 7`. -/
def COMPOSITE_INTERVAL_DAYS : Nat := 7

/-- Fuel-driven body of `generate_date_list`: while `current < end`, append
`current` and advance by `interval` days.  The fuel `end - start` bounds the
iteration count whenever `interval ≥ 1` (each step advances at least one
day), so the fuel never runs out on the source's inputs. -/
def genDatesAux (interval : Nat) : Nat → Nat → Nat → List Nat
  | 0, _, _ => []
  | fuel + 1, current, endd =>
    if current < endd then current :: genDatesAux interval fuel (current + interval) endd
    else []

/-- `generate_date_list(start, end, interval_days)` from
working_weekly_data.py, producing window-start dates as ordinals (the Python
code stores the same dates formatted as ISO strings; the ISO string order on
one era coincides with the ordinal order). -/
def generate_date_list (start endd interval : Nat) : List Nat :=
  genDatesAux interval (endd - start) start endd

/-! ## Geometry model (tank_polygons_by_region.py, shapely semantics) -/

/-- A point, with exact integer coordinates. -/
abbrev Pt := Int × Int

/-- Twice the signed area of triangle `o a b` (orientation test). -/
def crossO (o a b : Pt) : Int :=
  (a.1 - o.1) * (b.2 - o.2) - (a.2 - o.2) * (b.1 - o.1)

/-- Twice the signed area of the closed polyline `p₀ p₁ ... pₙ` (shoelace sum
over consecutive pairs).  For a closed ring this is twice the signed area of
the polygon, so `shapely` `poly.area > 0` is `shoelaceAux ring ≠ 0`. -/
def shoelaceAux : List Pt → Int
  | p :: q :: rest => (p.1 * q.2 - q.1 * p.2) + shoelaceAux (q :: rest)
  | _ => 0

/-- Is `c` inside the closed interval spanned by `a` and `b`? -/
def between (a b c : Int) : Bool := (min a b ≤ c) && (c ≤ max a b)

/-- Does point `r` lie on the closed segment from `p` to `q`? -/
def onSeg (p q r : Pt) : Bool :=
  (crossO p q r == 0) && between p.1 q.1 r.1 && between p.2 q.2 r.2

/-- Do the closed segments `(p, q)` and `(a, b)` intersect (properly cross,
or touch at any point)? -/
def segsIntersect (s t : Pt × Pt) : Bool :=
  let p := s.1
  let q := s.2
  let a := t.1
  let b := t.2
  let d1 := crossO p q a
  let d2 := crossO p q b
  let d3 := crossO a b p
  let d4 := crossO a b q
  (((d1 > 0 && d2 < 0) || (d1 < 0 && d2 > 0)) &&
   ((d3 > 0 && d4 < 0) || (d3 < 0 && d4 > 0)))
  || onSeg p q a || onSeg p q b || onSeg a b p || onSeg a b q

/-- Two ring edges sharing exactly the endpoint `s`, with far endpoints `u`
and `v`: they overlap in more than the shared point iff one far endpoint lies
on the other edge. -/
def adjacentBad (s u v : Pt) : Bool := onSeg s v u || onSeg s u v

/-- The directed edges of a ring (consecutive point pairs). -/
def ringSegs (ring : List Pt) : List (Pt × Pt) := ring.zip ring.tail

/-- Is the edge pair `(i, j)` (with `i < j`, `n` edges in total) evidence
that the ring is not simple? -/
def pairBad (es : List (Pt × Pt)) (n i j : Nat) : Bool :=
  let e := es.getD i default
  let f := es.getD j default
  if j == i + 1 then adjacentBad e.2 e.1 f.2
  else if i == 0 && j == n - 1 then adjacentBad e.1 e.2 f.1
  else segsIntersect e f

/-- Self-intersection test for a closed ring: some pair of edges meets other
than in the single shared endpoint of consecutive edges.  This is the
standard simple-polygon criterion underlying shapely's `is_valid` for rings
with exact coordinates. -/
def selfIntersects (ring : List Pt) : Bool :=
  let es := ringSegs ring
  let n := es.length
  (List.range n).any (fun i =>
    (List.range n).any (fun j => decide (i < j) && pairBad es n i j))

/-- Ring closing from tank_polygons_by_region.py (lines 95-96): if the first
and last coordinates differ, append the first coordinate.  (`xs.getLastD x`
is the last coordinate of `x :: xs`.) -/
def closeRing : List Pt → List Pt
  | [] => []
  | x :: xs => if x = xs.getLastD x then x :: xs else (x :: xs) ++ [x]

/-- Model of shapely `poly.is_valid` for a single closed ring. -/
def polyIsValid (ring : List Pt) : Bool := ! selfIntersects ring

/-- Model of shapely `poly.area > 0` for a single closed ring. -/
def polyAreaPos (ring : List Pt) : Bool := shoelaceAux ring != 0

/-- The validation step of `fetch_tanks` (lines 91-101): discard candidate
rings with fewer than 3 coordinates, close the ring, and accept it only when
the polygon is valid with strictly positive area.  `none` is a silent skip
(Python `continue`), not an error. -/
def validateRing (coords : List Pt) : Option (List Pt) :=
  if coords.length < 3 then none
  else if polyIsValid (closeRing coords) && polyAreaPos (closeRing coords) then
    some (closeRing coords)
  else none

/-- Affine weight used in the degenerate-ring area argument: 1 at `b`,
0 elsewhere. -/
def tval (b p : Pt) : Int := if p = b then 1 else 0

/-! ## Overpass elements and the fetch loop (tank_polygons_by_region.py) -/

/-- A raw element of an Overpass response: node, way, or relation.
Relations are returned by the query but never assembled (spec section 4.3). -/
inductive Element where
  | node (id : Int) (lon lat : Int)
  | way (id : Int) (nodeIds : List Int) (tags : List (String × String))
  | relation (id : Int)
deriving DecidableEq

/-- The `(id, (lon, lat))` entry a node element contributes to the node map. -/
def nodeEntry : Element → Option (Int × Pt)
  | .node i lo la => some (i, (lo, la))
  | _ => none

/-- The node map built by the dict comprehension (lines 82-83); a later node
with the same id overwrites an earlier one, hence the reverse. -/
def nodeLookup (els : List Element) (i : Int) : Option Pt :=
  ((els.filterMap nodeEntry).reverse).lookup i

/-- Processing of one way element (lines 87-119): resolve node ids (dropping
dangling references), validate the ring, and on acceptance build the feature
with `tank_id`, `location` and any `content` / `substance` tags. -/
def processWay (els : List Element) (loc : String) :
    Element → Option (Feature (List Pt))
  | .way wid nids tags =>
    let coords := nids.filterMap (nodeLookup els)
    match validateRing coords with
    | none => none
    | some ring =>
      let base := [(tankIdKey, PropValue.vint wid), (locationKey, PropValue.vstr loc)]
      let withContent := base ++
        (match tags.lookup contentKey with
         | some c => [(contentKey, PropValue.vstr c)]
         | none => [])
      let withSubstance := withContent ++
        (match tags.lookup substanceKey with
         | some s => [(substanceKey, PropValue.vstr s)]
         | none => [])
      some ⟨ring, withSubstance⟩
  | _ => none

/-- The feature list built from one successful response body. -/
def processElements (els : List Element) (loc : String) : List (Feature (List Pt)) :=
  els.filterMap (processWay els loc)

/-- The outcome of one attempted POST to an Overpass mirror, as seen by the
`try` block: the three retried failure classes, the catch-all `otherError`
(Python `except Exception`), or a parsed JSON body. -/
inductive FetchOutcome where
  | timeout
  | netError
  | badJson
  | otherError
  | success (remark : Option String) (elements : List Element)
deriving DecidableEq

/-- Does the outcome take one of the failure branches? -/
def FetchOutcome.isFailure : FetchOutcome → Bool
  | .success _ _ => false
  | _ => true

/-- The observable shape of one loop iteration: which mirror was used and how
long the backoff sleep before the request was (0 = no sleep). -/
structure AttemptLog where
  server : String
  backoff : Nat
deriving DecidableEq

def overpassDe : String := "https://overpass-api.de/api/interpreter"

def overpassKumi : String := "https://overpass.kumi.systems/api/interpreter"

def overpassRu : String := "https://overpass.openstreetmap.ru/api/interpreter"

/-- `OVERPASS_SERVERS` from tank_polygons_by_region.py. -/
def OVERPASS_SERVERS : List String := [overpassDe, overpassKumi, overpassRu]

def noServerFallback : String := ""

/-- `servers[attempt % len(servers)]` (line 53); only evaluated when the
server list is nonempty, so the fallback is never reached. -/
def serverFor (servers : List String) (attempt : Nat) : String :=
  servers.getD (attempt % servers.length) noServerFallback

/-- The attempt log produced by iteration `attempt` of the loop. -/
def logAt (servers : List String) (attempt : Nat) : AttemptLog :=
  ⟨serverFor servers attempt, if attempt > 0 then 5 * attempt else 0⟩

/-- The only exception that can escape `fetch_tanks`: `attempt % 0` when the
mirror list is empty (line 53 sits outside the `try`). -/
inductive FetchError where
  | zeroDivision
deriving DecidableEq

/-- The retry loop of `fetch_tanks` (lines 52-153), driven by an outcome
oracle indexed by attempt number.  Fuel counts the remaining iterations, so
the current attempt index is `maxRetries - fuel`.  Returns the list of
attempt logs together with the feature list the Python function returns. -/
def fetchGo (outcomes : Nat → FetchOutcome) (servers : List String)
    (maxRetries : Nat) (loc : String) :
    Nat → Except FetchError (List AttemptLog × List (Feature (List Pt)))
  | 0 => .ok ([], [])
  | k + 1 =>
    let attempt := maxRetries - (k + 1)
    if servers.isEmpty then .error .zeroDivision
    else
      match outcomes attempt with
      | .success _ els => .ok ([logAt servers attempt], processElements els loc)
      | _ =>
        if k = 0 then .ok ([logAt servers attempt], [])
        else
          match fetchGo outcomes servers maxRetries loc k with
          | .ok (t, r) => .ok (logAt servers attempt :: t, r)
          | .error e => .error e

/-- `fetch_tanks(location_name, bbox, max_retries)`: run the loop from
attempt 0. -/
def fetch_tanks (outcomes : Nat → FetchOutcome) (servers : List String)
    (loc : String) (maxRetries : Nat) :
    Except FetchError (List AttemptLog × List (Feature (List Pt))) :=
  fetchGo outcomes servers maxRetries loc maxRetries

/-! ## Asset loading (working_weekly_data.py, load_storage_polygons) -/

/-- The outcome of resolving one published asset: a feature list (whose
length is the `size().getInfo()` count), a backend not-found condition
(`ee.EEException`), or any other error. -/
inductive AssetOutcome (α : Type) where
  | resolved (features : List α)
  | notFound
  | otherError
deriving DecidableEq

/-- The `valid_collections` accumulation (lines 53-75): an asset is accepted
exactly when it resolves with count > 0; empty or erroring assets are
excluded. -/
def acceptedCollections {α : Type} (outs : List (AssetOutcome α)) : List (List α) :=
  outs.filterMap (fun o =>
    match o with
    | .resolved fs => if 0 < fs.length then some fs else none
    | _ => none)

/-- `load_storage_polygons` (lines 46-106): `None` when no asset was
accepted, otherwise the pairwise `merge` fold of the accepted collections.
GEE `FeatureCollection.merge` concatenates the two collections, so it is
modelled by list append. -/
def load_storage_polygons {α : Type} (outs : List (AssetOutcome α)) : Option (List α) :=
  match acceptedCollections outs with
  | [] => none
  | c :: cs => some (cs.foldl (fun m c2 => m ++ c2) c)

/-! ## The statistics script body (working_weekly_data.py, module level) -/

/-- A network-touching action of the statistics script, in execution order. -/
inductive NetAction where
  | initializeBackend
  | loadAsset (name : String)
  | fetchImagery (weekOrdinal : Nat)
deriving DecidableEq

def weekdayErrMsg : String := "START_DATE must be a Wednesday (EIA release day)."

/-- The module-level control flow of working_weekly_data.py: the weekday
check (lines 16-22) runs when the module is loaded, before `run_extraction`
performs any network activity (`ee.Initialize`, asset loads, per-window
imagery fetches).  An `.error` result carries no action list: nothing after
the raise executes. -/
def runModule (startOrd endOrd intervalDays : Nat) (assets : List String) :
    Except String (List NetAction) :=
  if pyWeekday startOrd ≠ EIA_RELEASE_WEEKDAY then .error weekdayErrMsg
  else
    .ok (NetAction.initializeBackend ::
      (assets.map NetAction.loadAsset ++
        (generate_date_list startOrd endOrd intervalDays).map NetAction.fetchImagery))

/-! ## Concrete inputs used by the examples and witnesses -/

def feat1 : Feature Nat := ⟨101, [(tankIdKey, PropValue.vint 1)]⟩

def feat2a : Feature Nat := ⟨102, [(tankIdKey, PropValue.vint 2)]⟩

def feat2b : Feature Nat := ⟨202, [(tankIdKey, PropValue.vint 2)]⟩

def feat3 : Feature Nat := ⟨203, [(tankIdKey, PropValue.vint 3)]⟩

/-- First polygon set of the end-to-end merge scenario. -/
def polySet1 : List (Feature Nat) := [feat1, feat2a]

/-- Second polygon set of the end-to-end merge scenario. -/
def polySet2 : List (Feature Nat) := [feat2b, feat3]

def fujairahName : String := "Fujairah, UAE"

/-- An id-less feature (no `tank_id` property at all). -/
def noIdFeat1 : Feature Nat := ⟨401, [(locationKey, PropValue.vstr fujairahName)]⟩

/-- Another id-less feature with an unrelated geometry. -/
def noIdFeat2 : Feature Nat := ⟨402, []⟩

/-- A simple closed quadrilateral (unit-like square, already closed). -/
def quadRing : List Pt := [(0, 0), (2, 0), (2, 2), (0, 2), (0, 0)]

/-- A self-intersecting (bowtie) candidate ring. -/
def bowtieRing : List Pt := [(0, 0), (2, 2), (2, 0), (0, 2)]

/-- A collinear, zero-area candidate ring. -/
def collinearRing : List Pt := [(0, 0), (1, 1), (2, 2)]

/-- Four coordinates but only two distinct points. -/
def twoPointRing : List Pt := [(0, 0), (1, 1), (0, 0), (1, 1)]

/-- An outcome oracle on which every attempt times out. -/
def allTimeouts : Nat → FetchOutcome := fun _ => FetchOutcome.timeout

/-- An outcome oracle on which every attempt succeeds with an empty element
list (a successful fetch of an empty region). -/
def allEmptySuccess : Nat → FetchOutcome := fun _ => FetchOutcome.success none []

/-- 2024-01-04, a Thursday (weekday 3): an anchor violating the EIA rule. -/
def thursdayOrd : Nat := toOrdinal 2024 1 4

def assetFeatA : Feature Nat := ⟨301, [(tankIdKey, PropValue.vint 10)]⟩

def assetFeatB : Feature Nat := ⟨302, [(tankIdKey, PropValue.vint 11)]⟩

def assetFeatC : Feature Nat := ⟨303, [(tankIdKey, PropValue.vint 12)]⟩

/-- A concrete asset-resolution run: one non-empty asset, one missing asset,
one present-but-empty asset, one further non-empty asset. -/
def exAssetOutcomes : List (AssetOutcome (Feature Nat)) :=
  [AssetOutcome.resolved [assetFeatA], AssetOutcome.notFound,
    AssetOutcome.resolved [], AssetOutcome.resolved [assetFeatB, assetFeatC]]

/-! ## Lemmas about the deduplication loop -/

theorem specFirstWins_cons {γ : Type} (f : Feature γ) (rest : List (Feature γ)) :
    specFirstWins (f :: rest) =
      f :: specFirstWins (rest.filter (fun g => decide (tankKey g ≠ tankKey f))) := by
  rw [specFirstWins.eq_def]

theorem uniqueAux_eq_spec {γ : Type} (fs : List (Feature γ)) :
    ∀ seen, uniqueFeaturesAux seen fs =
      specFirstWins (fs.filter (fun g => decide (tankKey g ∉ seen))) := by
  induction fs with
  | nil => intro seen; simp [uniqueFeaturesAux, specFirstWins]
  | cons f rest ih =>
    intro seen
    by_cases h : tankKey f ∈ seen
    · have hd : (decide (tankKey f ∉ seen)) = false := by simp [h]
      simp only [uniqueFeaturesAux, if_pos h, List.filter_cons, hd, if_neg Bool.false_ne_true]
      exact ih seen
    · have hd : (decide (tankKey f ∉ seen)) = true := by simp [h]
      simp only [uniqueFeaturesAux, if_neg h, List.filter_cons, hd, if_true]
      rw [specFirstWins_cons]
      congr 1
      rw [List.filter_filter, ih (tankKey f :: seen)]
      congr 1
      apply List.filter_congr
      intro g _
      by_cases h1 : tankKey g = tankKey f <;> by_cases h2 : tankKey g ∈ seen <;>
        simp [h1, h2]

theorem unique_features_eq_spec {γ : Type} (fs : List (Feature γ)) :
    unique_features fs = specFirstWins fs := by
  have h := uniqueAux_eq_spec fs []
  rw [unique_features, h]
  congr 1
  apply List.filter_eq_self.mpr
  intro g _
  simp

theorem uniqueAux_all_seen {γ : Type} (fs : List (Feature γ)) :
    ∀ seen, (∀ f ∈ fs, tankKey f ∈ seen) → uniqueFeaturesAux seen fs = [] := by
  induction fs with
  | nil => intro seen _; rfl
  | cons f rest ih =>
    intro seen hall
    have hf : tankKey f ∈ seen := hall f (List.mem_cons_self f rest)
    simp only [uniqueFeaturesAux, if_pos hf]
    exact ih seen (fun g hg => hall g (List.mem_cons_of_mem f hg))

theorem uniqueAux_append_nodup {γ : Type} (fs : List (Feature γ)) :
    ∀ (gs : List (Feature γ)) (seen : List PropValue),
      (fs.map tankKey).Nodup → (∀ f ∈ fs, tankKey f ∉ seen) →
      ∃ seen2, uniqueFeaturesAux seen (fs ++ gs) = fs ++ uniqueFeaturesAux seen2 gs
        ∧ ∀ k, k ∈ seen2 ↔ (k ∈ fs.map tankKey ∨ k ∈ seen) := by
  induction fs with
  | nil =>
    intro gs seen _ _
    exact ⟨seen, rfl, by simp⟩
  | cons f rest ih =>
    intro gs seen hnd hdis
    have hf : tankKey f ∉ seen := hdis f (List.mem_cons_self f rest)
    have hnd1 : (rest.map tankKey).Nodup := (List.nodup_cons.mp hnd).2
    have hhd : tankKey f ∉ rest.map tankKey := (List.nodup_cons.mp hnd).1
    have hdis1 : ∀ g ∈ rest, tankKey g ∉ tankKey f :: seen := by
      intro g hg
      rw [List.mem_cons]
      rintro (h1 | h2)
      · exact hhd (h1 ▸ List.mem_map_of_mem tankKey hg)
      · exact hdis g (List.mem_cons_of_mem f hg) h2
    obtain ⟨seen2, heq, hmem⟩ := ih gs (tankKey f :: seen) hnd1 hdis1
    refine ⟨seen2, ?_, ?_⟩
    · simp only [List.cons_append, uniqueFeaturesAux, if_neg hf]
      exact congrArg (List.cons f) heq
    · intro k
      rw [hmem]
      simp only [List.map_cons, List.mem_cons]
      tauto

theorem uniqueAux_countP_zero {γ : Type} (fs : List (Feature γ)) :
    ∀ seen k, k ∈ seen →
      (uniqueFeaturesAux seen fs).countP (keyMatches k) = 0 := by
  induction fs with
  | nil => intro seen k _; rfl
  | cons f rest ih =>
    intro seen k hk
    by_cases h : tankKey f ∈ seen
    · simp only [uniqueFeaturesAux, if_pos h]
      exact ih seen k hk
    · have hne : keyMatches k f = false := by
        have : tankKey f ≠ k := fun he => h (he ▸ hk)
        simp [keyMatches, this]
      simp only [uniqueFeaturesAux, if_neg h, List.countP_cons, hne]
      rw [ih (tankKey f :: seen) k (List.mem_cons_of_mem _ hk)]
      simp

theorem uniqueAux_countP_le_one {γ : Type} (fs : List (Feature γ)) :
    ∀ seen k, (uniqueFeaturesAux seen fs).countP (keyMatches k) ≤ 1 := by
  induction fs with
  | nil => intro seen k; simp [uniqueFeaturesAux]
  | cons f rest ih =>
    intro seen k
    by_cases h : tankKey f ∈ seen
    · simp only [uniqueFeaturesAux, if_pos h]
      exact ih seen k
    · simp only [uniqueFeaturesAux, if_neg h, List.countP_cons]
      by_cases hm : keyMatches k f = true
      · have hk : tankKey f = k := by simpa [keyMatches] using hm
        rw [uniqueAux_countP_zero rest (tankKey f :: seen) k
          (hk ▸ List.mem_cons_self (tankKey f) seen), hm]
        simp
      · rw [Bool.not_eq_true] at hm
        rw [hm]
        simpa using ih (tankKey f :: seen) k

theorem uniqueAux_find_eq {γ : Type} (fs : List (Feature γ)) :
    ∀ seen k, k ∉ seen →
      (uniqueFeaturesAux seen fs).find? (keyMatches k) = fs.find? (keyMatches k) := by
  induction fs with
  | nil => intro seen k _; rfl
  | cons f rest ih =>
    intro seen k hk
    by_cases h : tankKey f ∈ seen
    · have hne : ¬ (keyMatches k f = true) := by
        have hne2 : tankKey f ≠ k := fun he => hk (he ▸ h)
        simp [keyMatches, hne2]
      rw [List.find?_cons_of_neg _ hne]
      simp only [uniqueFeaturesAux, if_pos h]
      exact ih seen k hk
    · by_cases hm : keyMatches k f = true
      · simp only [uniqueFeaturesAux, if_neg h]
        rw [List.find?_cons_of_pos _ hm, List.find?_cons_of_pos _ hm]
      · have hk2 : k ∉ tankKey f :: seen := by
          rw [List.mem_cons]
          rintro (h1 | h2)
          · exact hm (by simp [keyMatches, h1])
          · exact hk h2
        simp only [uniqueFeaturesAux, if_neg h]
        rw [List.find?_cons_of_neg _ hm, List.find?_cons_of_neg _ hm]
        exact ih (tankKey f :: seen) k hk2

/-! ## Claim theorems: merging and deduplication -/

/-- C2: CollectionMerger concatenates its inputs preserving source order and
keeps, for each `tank_id`, only the first polygon encountered (geometry and
properties unchanged), dropping every later polygon with the same id without
geometric comparison; merging `[id 1, id 2]` with `[id 2, id 3]` yields
`[id 1, id 2 from the first set, id 3]`, with 4 input polygons, 3 unique,
1 duplicate removed. -/
theorem merger_first_wins :
    (∀ (δ : Type) (fs : List (Feature δ)), unique_features fs = specFirstWins fs)
    ∧ unique_features (polySet1 ++ polySet2) = [feat1, feat2a, feat3]
    ∧ (polySet1 ++ polySet2).length = 4
    ∧ (unique_features (polySet1 ++ polySet2)).length = 3
    ∧ (polySet1 ++ polySet2).length - (unique_features (polySet1 ++ polySet2)).length = 1 :=
  ⟨fun _ fs => unique_features_eq_spec fs, by decide, by decide, by decide, by decide⟩

/-- C3: deduplication is idempotent: merging a PolygonSet (with unique
`tank_id` values) with itself returns the set unchanged. -/
theorem merger_idempotent {γ : Type} (fs : List (Feature γ))
    (h : (fs.map tankKey).Nodup) : unique_features (fs ++ fs) = fs := by
  obtain ⟨seen2, heq, hmem⟩ := uniqueAux_append_nodup fs fs [] h (by simp)
  rw [unique_features, heq, uniqueAux_all_seen fs seen2 ?_, List.append_nil]
  intro f hf
  rw [hmem]
  exact Or.inl (List.mem_map_of_mem tankKey hf)

/-- Witness for C3 at a concrete two-element set with distinct ids. -/
theorem merger_idempotent_witness :
    unique_features (polySet1 ++ polySet1) = polySet1 :=
  merger_idempotent polySet1 (by decide)

/-- C9: a feature whose properties lack a `tank_id` key gets the identifier
`None`; hence at most one id-less feature survives deduplication, and the
survivor is the first such feature of the input, regardless of geometry. -/
theorem idless_features_collapse :
    (∀ props : List (String × PropValue), props.lookup tankIdKey = none →
      pyGet props tankIdKey = PropValue.vnull)
    ∧ (∀ (δ : Type) (fs : List (Feature δ)),
      (unique_features fs).countP (keyMatches PropValue.vnull) ≤ 1)
    ∧ (∀ (δ : Type) (fs : List (Feature δ)) (f : Feature δ),
      fs.find? (keyMatches PropValue.vnull) = some f →
      (unique_features fs).find? (keyMatches PropValue.vnull) = some f) := by
  refine ⟨?_, ?_, ?_⟩
  · intro props h
    rw [pyGet, h]
  · intro δ fs
    exact uniqueAux_countP_le_one fs [] PropValue.vnull
  · intro δ fs f h
    rw [unique_features, uniqueAux_find_eq fs [] PropValue.vnull (by simp), h]

/-- Witness for C9: two id-less features with unrelated geometries; the
second is dropped even though the geometries differ. -/
theorem idless_features_collapse_witness :
    pyGet noIdFeat1.properties tankIdKey = PropValue.vnull
    ∧ (unique_features [noIdFeat1, noIdFeat2]).countP (keyMatches PropValue.vnull) ≤ 1
    ∧ (unique_features [noIdFeat1, noIdFeat2]).find? (keyMatches PropValue.vnull) =
        some noIdFeat1
    ∧ unique_features [noIdFeat1, noIdFeat2] = [noIdFeat1] :=
  ⟨idless_features_collapse.1 noIdFeat1.properties (by decide),
    idless_features_collapse.2.1 Nat [noIdFeat1, noIdFeat2],
    idless_features_collapse.2.2 Nat [noIdFeat1, noIdFeat2] noIdFeat1 (by decide),
    by decide⟩

/-! ## Claim theorems: the weekly window sequence -/

/-- C1 (counterexample): for anchor 2024-01-03, end 2024-03-01 and a 7-day
interval, the generated window-start sequence does not have length 8: it has
9 entries (2024-01-03 through 2024-02-28, each strictly before 2024-03-01,
since 2024 is a leap year). -/
theorem window_count_not_eight :
    ¬ (generate_date_list START_DATE END_DATE COMPOSITE_INTERVAL_DAYS).length = 8 := by
  decide

/-- C1 (amended): for anchor 2024-01-03, end 2024-03-01 and a 7-day interval,
the window-start sequence generated by `generate_date_list` has length 9 and
is strictly increasing. -/
theorem window_sequence_length_mono :
    (generate_date_list START_DATE END_DATE COMPOSITE_INTERVAL_DAYS).length = 9
    ∧ (generate_date_list START_DATE END_DATE COMPOSITE_INTERVAL_DAYS).Pairwise (· < ·) := by
  constructor
  · decide
  · decide

/-! ## Lemmas about the geometry validator -/

theorem getLast?_eq_getLastD {α : Type} (x : α) (xs : List α) :
    (x :: xs).getLast? = some (xs.getLastD x) := by
  induction xs generalizing x with
  | nil => rfl
  | cons y ys ih => rw [List.getLast?_cons_cons, ih y, List.getLastD_cons]

theorem closeRing_subset (coords : List Pt) : ∀ p ∈ closeRing coords, p ∈ coords := by
  cases coords with
  | nil => intro p hp; simp [closeRing] at hp
  | cons x xs =>
    intro p hp
    simp only [closeRing] at hp
    split at hp
    · exact hp
    · rcases List.mem_append.mp hp with h | h
      · exact h
      · rw [List.mem_singleton] at h
        exact h ▸ List.mem_cons_self x xs

theorem closeRing_closed (x : Pt) (xs : List Pt) :
    (closeRing (x :: xs)).head? = (closeRing (x :: xs)).getLast? := by
  simp only [closeRing]
  split
  · rw [List.head?_cons, getLast?_eq_getLastD]
    exact congrArg some ‹x = xs.getLastD x›
  · rw [List.getLast?_concat]
    rfl

theorem crossterm (a b p q : Pt) (hp : p = a ∨ p = b) (hq : q = a ∨ q = b) :
    p.1 * q.2 - q.1 * p.2 = (a.1 * b.2 - b.1 * a.2) * (tval b q - tval b p) := by
  rcases hp with hp | hp <;> rcases hq with hq | hq <;> subst hp <;> subst hq <;>
    simp only [tval] <;> split_ifs <;> subst_vars <;> ring

theorem shoelace_telescope (a b : Pt) (l : List Pt) :
    ∀ p0 : Pt, (∀ p ∈ p0 :: l, p = a ∨ p = b) →
      ∃ q, (p0 :: l).getLast? = some q ∧
        shoelaceAux (p0 :: l) = (a.1 * b.2 - b.1 * a.2) * (tval b q - tval b p0) := by
  induction l with
  | nil =>
    intro p0 _
    refine ⟨p0, rfl, ?_⟩
    show (0 : Int) = _
    ring
  | cons q rest ih =>
    intro p0 h
    obtain ⟨z, hz, hs⟩ := ih q (fun p hp => h p (List.mem_cons_of_mem p0 hp))
    refine ⟨z, ?_, ?_⟩
    · rw [List.getLast?_cons_cons]
      exact hz
    · have hp0 : p0 = a ∨ p0 = b := h p0 (List.mem_cons_self _ _)
      have hq : q = a ∨ q = b := h q (List.mem_cons_of_mem p0 (List.mem_cons_self _ _))
      show (p0.1 * q.2 - q.1 * p0.2) + shoelaceAux (q :: rest) = _
      rw [hs, crossterm a b p0 q hp0 hq]
      ring

theorem shoelace_two_point_ring (a b : Pt) (l : List Pt)
    (hmem : ∀ p ∈ l, p = a ∨ p = b) (hcl : l.head? = l.getLast?) :
    shoelaceAux l = 0 := by
  cases l with
  | nil => rfl
  | cons p0 rest =>
    obtain ⟨z, hz, hs⟩ := shoelace_telescope a b rest p0 hmem
    rw [List.head?_cons, hz] at hcl
    obtain rfl : p0 = z := by injection hcl
    rw [hs]
    ring

theorem validateRing_area_zero {coords : List Pt}
    (h : shoelaceAux (closeRing coords) = 0) : validateRing coords = none := by
  unfold validateRing
  have hp : polyAreaPos (closeRing coords) = false := by simp [polyAreaPos, h]
  rw [hp, Bool.and_false]
  split <;> rfl

theorem validateRing_self_intersecting {coords : List Pt}
    (h : selfIntersects (closeRing coords) = true) : validateRing coords = none := by
  unfold validateRing
  have hp : polyIsValid (closeRing coords) = false := by simp [polyIsValid, h]
  rw [hp, Bool.false_and]
  split <;> rfl

theorem validateRing_two_points {coords : List Pt} {a b : Pt}
    (hmem : ∀ p ∈ coords, p = a ∨ p = b) : validateRing coords = none := by
  by_cases hl : coords.length < 3
  · unfold validateRing
    rw [if_pos hl]
  · apply validateRing_area_zero
    cases coords with
    | nil => exact absurd (by norm_num) hl
    | cons x xs =>
      exact shoelace_two_point_ring a b (closeRing (x :: xs))
        (fun p hp => hmem p (closeRing_subset _ p hp)) (closeRing_closed x xs)

theorem processWay_silent_drop (els : List Element) (loc : String) (wid : Int)
    (nids : List Int) (tags : List (String × String))
    (h : validateRing (nids.filterMap (nodeLookup els)) = none) :
    processWay els loc (Element.way wid nids tags) = none := by
  simp only [processWay, h]

/-! ## Claim theorem: the geometry validator -/

/-- C4: the validation step rejects every candidate ring with fewer than 3
distinct points (all coordinates drawn from at most two points), every ring
whose closed form self-intersects, and every ring whose closed form has zero
area; it accepts a simple closed quadrilateral; and rejection is silent: the
way is dropped (`none`), no error is propagated. -/
theorem validator_checks :
    (∀ (coords : List Pt) (a b : Pt), (∀ p ∈ coords, p = a ∨ p = b) →
      validateRing coords = none)
    ∧ (∀ coords : List Pt, selfIntersects (closeRing coords) = true →
      validateRing coords = none)
    ∧ (∀ coords : List Pt, shoelaceAux (closeRing coords) = 0 →
      validateRing coords = none)
    ∧ validateRing quadRing = some quadRing
    ∧ (∀ (els : List Element) (loc : String) (wid : Int)
        (nids : List Int) (tags : List (String × String)),
        validateRing (nids.filterMap (nodeLookup els)) = none →
        processWay els loc (Element.way wid nids tags) = none) :=
  ⟨fun _ _ _ h => validateRing_two_points h,
    fun _ h => validateRing_self_intersecting h,
    fun _ h => validateRing_area_zero h,
    by decide,
    fun els loc wid nids tags h => processWay_silent_drop els loc wid nids tags h⟩

/-- Witness for C4: a four-coordinate ring with only two distinct points, a
bowtie ring, and a collinear ring are all rejected. -/
theorem validator_checks_witness :
    validateRing twoPointRing = none
    ∧ validateRing bowtieRing = none
    ∧ validateRing collinearRing = none :=
  ⟨validator_checks.1 twoPointRing (0, 0) (1, 1) (by decide),
    validator_checks.2.1 bowtieRing (by decide),
    validator_checks.2.2.1 collinearRing (by decide)⟩

/-! ## Lemmas about the fetch loop -/

theorem fetchGo_success_step (outcomes : Nat → FetchOutcome) (servers : List String)
    (m : Nat) (loc : String) (k : Nat) (rem : Option String) (els : List Element)
    (hse : servers.isEmpty = false)
    (ho : outcomes (m - (k + 1)) = FetchOutcome.success rem els) :
    fetchGo outcomes servers m loc (k + 1) =
      .ok ([logAt servers (m - (k + 1))], processElements els loc) := by
  simp [fetchGo, hse, ho]

theorem fetchGo_failure_step (outcomes : Nat → FetchOutcome) (servers : List String)
    (m : Nat) (loc : String) (k : Nat) (hse : servers.isEmpty = false)
    (hf : (outcomes (m - (k + 1))).isFailure = true) :
    fetchGo outcomes servers m loc (k + 1) =
      if k = 0 then .ok ([logAt servers (m - (k + 1))], [])
      else
        match fetchGo outcomes servers m loc k with
        | .ok (t, r) => .ok (logAt servers (m - (k + 1)) :: t, r)
        | .error e => .error e := by
  cases ho : outcomes (m - (k + 1)) with
  | success rem els =>
    rw [ho] at hf
    simp [FetchOutcome.isFailure] at hf
  | timeout => simp [fetchGo, hse, ho]
  | netError => simp [fetchGo, hse, ho]
  | badJson => simp [fetchGo, hse, ho]
  | otherError => simp [fetchGo, hse, ho]

theorem fetchGo_spec (outcomes : Nat → FetchOutcome) (servers : List String)
    (m : Nat) (loc : String) (hse : servers.isEmpty = false) :
    ∀ k, k ≤ m →
      ∃ t r, fetchGo outcomes servers m loc k = .ok (t, r)
        ∧ t.length ≤ k
        ∧ ∀ j (hj : j < t.length), t.get ⟨j, hj⟩ = logAt servers (m - k + j) := by
  intro k
  induction k with
  | zero =>
    intro _
    refine ⟨[], [], rfl, Nat.le_refl 0, ?_⟩
    intro j hj
    exact absurd hj (by simp)
  | succ k ih =>
    intro hk
    by_cases hf : (outcomes (m - (k + 1))).isFailure = true
    · rw [fetchGo_failure_step outcomes servers m loc k hse hf]
      by_cases hk0 : k = 0
      · subst hk0
        rw [if_pos rfl]
        refine ⟨[logAt servers (m - 1)], [], rfl, by simp, ?_⟩
        intro j hj
        have hj0 : j = 0 := Nat.lt_one_iff.mp (by simpa using hj)
        subst hj0
        simp
      · rw [if_neg hk0]
        obtain ⟨t, r, heq, hlen, hget⟩ := ih (Nat.le_of_succ_le hk)
        rw [heq]
        refine ⟨logAt servers (m - (k + 1)) :: t, r, rfl, by simpa using hlen, ?_⟩
        intro j hj
        cases j with
        | zero => simp
        | succ j2 =>
          have hj2 : j2 < t.length := by simpa using hj
          have hval := hget j2 hj2
          have harg : m - k + j2 = m - (k + 1) + (j2 + 1) := by omega
          simp only [List.get_cons_succ]
          rw [hval, harg]
    · rw [Bool.not_eq_true] at hf
      obtain ⟨rem, els, ho⟩ : ∃ rem els,
          outcomes (m - (k + 1)) = FetchOutcome.success rem els := by
        cases hout : outcomes (m - (k + 1)) with
        | success rem els => exact ⟨rem, els, rfl⟩
        | timeout => rw [hout] at hf; exact absurd hf (by simp [FetchOutcome.isFailure])
        | netError => rw [hout] at hf; exact absurd hf (by simp [FetchOutcome.isFailure])
        | badJson => rw [hout] at hf; exact absurd hf (by simp [FetchOutcome.isFailure])
        | otherError => rw [hout] at hf; exact absurd hf (by simp [FetchOutcome.isFailure])
      refine ⟨[logAt servers (m - (k + 1))], processElements els loc,
        fetchGo_success_step outcomes servers m loc k rem els hse ho, by simp, ?_⟩
      intro j hj
      have hj0 : j = 0 := Nat.lt_one_iff.mp (by simpa using hj)
      subst hj0
      simp

theorem fetchGo_all_fail (outcomes : Nat → FetchOutcome) (servers : List String)
    (m : Nat) (loc : String) (hse : servers.isEmpty = false)
    (hf : ∀ i, (outcomes i).isFailure = true) :
    ∀ k, k ≤ m → fetchGo outcomes servers m loc k =
      .ok ((List.range k).map (fun j => logAt servers (m - k + j)), []) := by
  intro k
  induction k with
  | zero => intro _; rfl
  | succ k ih =>
    intro hk
    rw [fetchGo_failure_step outcomes servers m loc k hse (hf _)]
    by_cases hk0 : k = 0
    · subst hk0
      rw [if_pos rfl]
      have h1 : List.range 1 = [0] := rfl
      rw [h1]
      simp
    · rw [if_neg hk0, ih (Nat.le_of_succ_le hk)]
      show Except.ok (logAt servers (m - (k + 1)) :: _, ([] : List (Feature (List Pt)))) = _
      rw [List.range_succ_eq_map, List.map_cons, List.map_map]
      have hhead : logAt servers (m - (k + 1)) = logAt servers (m - (k + 1) + 0) := by
        simp
      have htail : List.map (fun j => logAt servers (m - k + j)) (List.range k) =
          List.map ((fun j => logAt servers (m - (k + 1) + j)) ∘ Nat.succ) (List.range k) := by
        apply List.map_congr_left
        intro x _
        have harg : m - k + x = m - (k + 1) + (x + 1) := by omega
        simp [Function.comp, harg]
      rw [hhead, htail]

/-! ## Claim theorems: the fetch loop -/

/-- C5: the fetch operation makes at most `maxAttempts` attempts; attempt `i`
uses mirror `endpoints[i mod len(endpoints)]`; and the backoff sleep before
attempt `i` is `5 * i` seconds for `i > 0` and absent (`0`) before the first
attempt. -/
theorem fetch_retry_round_robin (outcomes : Nat → FetchOutcome)
    (servers : List String) (loc : String) (maxRetries : Nat)
    (hs : servers ≠ []) :
    ∃ trace res, fetch_tanks outcomes servers loc maxRetries = .ok (trace, res)
      ∧ trace.length ≤ maxRetries
      ∧ ∀ i (hi : i < trace.length),
        (trace.get ⟨i, hi⟩).server = servers.getD (i % servers.length) noServerFallback
        ∧ (trace.get ⟨i, hi⟩).backoff = (if i > 0 then 5 * i else 0) := by
  have hse : servers.isEmpty = false := by
    cases servers with
    | nil => exact absurd rfl hs
    | cons a as => rfl
  obtain ⟨t, r, heq, hlen, hget⟩ :=
    fetchGo_spec outcomes servers maxRetries loc hse maxRetries (Nat.le_refl _)
  refine ⟨t, r, heq, hlen, ?_⟩
  intro i hi
  have hval := hget i hi
  have harg : maxRetries - maxRetries + i = i := by omega
  rw [harg] at hval
  rw [hval]
  exact ⟨rfl, rfl⟩

/-- Witness for C5: a concrete all-failing run over the three configured
mirrors with three attempts. -/
theorem fetch_retry_round_robin_witness :
    OVERPASS_SERVERS ≠ [] ∧
    ∃ trace res, fetch_tanks allTimeouts OVERPASS_SERVERS fujairahName 3 = .ok (trace, res)
      ∧ trace.length ≤ 3
      ∧ ∀ i (hi : i < trace.length),
        (trace.get ⟨i, hi⟩).server =
          OVERPASS_SERVERS.getD (i % OVERPASS_SERVERS.length) noServerFallback
        ∧ (trace.get ⟨i, hi⟩).backoff = (if i > 0 then 5 * i else 0) :=
  ⟨by decide, fetch_retry_round_robin allTimeouts OVERPASS_SERVERS fujairahName 3 (by decide)⟩

/-- C6: when every attempt fails (any mix of timeout, network error,
malformed body, or other error), the loop makes exactly `maxAttempts`
attempts, returns an explicit empty feature list (`.ok`, no exception), and
two all-failing runs are treated identically regardless of the mix of
failure classes. -/
theorem fetch_failure_returns_empty (outcomes : Nat → FetchOutcome)
    (servers : List String) (loc : String) (maxRetries : Nat)
    (hs : servers ≠ []) (hf : ∀ i, (outcomes i).isFailure = true) :
    fetch_tanks outcomes servers loc maxRetries =
      .ok ((List.range maxRetries).map (logAt servers), [])
    ∧ ((List.range maxRetries).map (logAt servers)).length = maxRetries
    ∧ (∀ outcomes2 : Nat → FetchOutcome, (∀ i, (outcomes2 i).isFailure = true) →
      fetch_tanks outcomes2 servers loc maxRetries =
        fetch_tanks outcomes servers loc maxRetries) := by
  have hse : servers.isEmpty = false := by
    cases servers with
    | nil => exact absurd rfl hs
    | cons a as => rfl
  have hmap : ∀ o2 : Nat → FetchOutcome, (∀ i, (o2 i).isFailure = true) →
      fetch_tanks o2 servers loc maxRetries =
        .ok ((List.range maxRetries).map (logAt servers), []) := by
    intro o2 hf2
    rw [fetch_tanks, fetchGo_all_fail o2 servers maxRetries loc hse hf2 maxRetries (Nat.le_refl _)]
    congr 1
    rw [Prod.mk.injEq]
    refine ⟨?_, rfl⟩
    apply List.map_congr_left
    intro x _
    have harg : maxRetries - maxRetries + x = x := by omega
    rw [harg]
  refine ⟨hmap outcomes hf, by simp, ?_⟩
  intro o2 hf2
  rw [hmap o2 hf2, hmap outcomes hf]

/-- Witness for C6: three timeouts over the configured mirrors. -/
theorem fetch_failure_returns_empty_witness :
    fetch_tanks allTimeouts OVERPASS_SERVERS fujairahName 3 =
      .ok ((List.range 3).map (logAt OVERPASS_SERVERS), []) :=
  (fetch_failure_returns_empty allTimeouts OVERPASS_SERVERS fujairahName 3
    (by decide) (fun _ => rfl)).1

/-- C10: the Python return value (the feature list) is the empty list both
when all `maxAttempts` attempts fail and when an attempt succeeds but the
response yields zero valid tank polygons, so a caller cannot distinguish the
two situations from the return value alone. -/
theorem fetch_empty_ambiguous (servers : List String) (loc : String) (m : Nat)
    (hs : servers ≠ []) (oFail : Nat → FetchOutcome)
    (hf : ∀ i, (oFail i).isFailure = true)
    (oSucc : Nat → FetchOutcome) (rem : Option String) (els : List Element)
    (h0 : oSucc 0 = FetchOutcome.success rem els)
    (he : processElements els loc = [])
    (hm : 0 < m) :
    (∃ t1, fetch_tanks oFail servers loc m = .ok (t1, []))
    ∧ (∃ t2, fetch_tanks oSucc servers loc m = .ok (t2, [])) := by
  have hse : servers.isEmpty = false := by
    cases servers with
    | nil => exact absurd rfl hs
    | cons a as => rfl
  constructor
  · exact ⟨_, by
      rw [fetch_tanks, fetchGo_all_fail oFail servers m loc hse hf m (Nat.le_refl _)]⟩
  · obtain ⟨k, rfl⟩ : ∃ k, m = k + 1 := ⟨m - 1, by omega⟩
    refine ⟨[logAt servers (k + 1 - (k + 1))], ?_⟩
    rw [fetch_tanks, fetchGo_success_step oSucc servers (k + 1) loc k rem els hse
      (by rw [Nat.sub_self]; exact h0), he]

/-- Witness for C10: all-timeout run versus a successful fetch whose response
produces no features; both return the empty list. -/
theorem fetch_empty_ambiguous_witness :
    (∃ t1, fetch_tanks allTimeouts OVERPASS_SERVERS fujairahName 3 = .ok (t1, []))
    ∧ (∃ t2, fetch_tanks allEmptySuccess OVERPASS_SERVERS fujairahName 3 = .ok (t2, [])) :=
  fetch_empty_ambiguous OVERPASS_SERVERS fujairahName 3 (by decide) allTimeouts
    (fun _ => rfl) allEmptySuccess none [] rfl rfl (by decide)

/-! ## Lemmas about the asset loader -/

theorem foldl_append_length {α : Type} (cs : List (List α)) :
    ∀ c : List α, (cs.foldl (fun m c2 => m ++ c2) c).length =
      c.length + (cs.map List.length).sum := by
  induction cs with
  | nil => intro c; simp
  | cons x cs ih =>
    intro c
    simp only [List.foldl_cons, ih (c ++ x), List.length_append, List.map_cons, List.sum_cons]
    omega

/-! ## Claim theorems: asset loading and the weekday guard -/

/-- C7: the loader accepts exactly the asset references that resolve with
feature count > 0 (count 0 and every resolution error are excluded); with
zero accepted assets it returns `none` (total failure), and with at least one
accepted asset it returns a merged set whose size is the sum of the accepted
assets' sizes (the disjoint-ids assumption of the spec is recorded as a
hypothesis). -/
theorem asset_loader_accepts (outs : List (AssetOutcome (Feature Nat))) :
    (∀ fs, fs ∈ acceptedCollections outs ↔
      (AssetOutcome.resolved fs ∈ outs ∧ 0 < fs.length))
    ∧ (acceptedCollections outs = [] → load_storage_polygons outs = none)
    ∧ (∀ c cs, acceptedCollections outs = c :: cs →
      ((c :: cs).map (fun l => l.map tankKey)).Pairwise
        (fun k1 k2 => ∀ x ∈ k1, x ∉ k2) →
      ∃ merged, load_storage_polygons outs = some merged
        ∧ merged.length = ((c :: cs).map List.length).sum) := by
  refine ⟨?_, ?_, ?_⟩
  · intro fs
    constructor
    · intro h
      obtain ⟨o, ho, hmap⟩ := List.mem_filterMap.mp h
      cases o with
      | resolved gs =>
        have hmap2 : (if 0 < gs.length then some gs else none) = some fs := hmap
        by_cases hg : 0 < gs.length
        · rw [if_pos hg] at hmap2
          obtain rfl : gs = fs := by injection hmap2
          exact ⟨ho, hg⟩
        · rw [if_neg hg] at hmap2
          exact absurd hmap2 (by simp)
      | notFound =>
        have hmap2 : (none : Option (List (Feature Nat))) = some fs := hmap
        exact absurd hmap2 (by simp)
      | otherError =>
        have hmap2 : (none : Option (List (Feature Nat))) = some fs := hmap
        exact absurd hmap2 (by simp)
    · rintro ⟨hmem, hlen⟩
      refine List.mem_filterMap.mpr ⟨AssetOutcome.resolved fs, hmem, ?_⟩
      show (if 0 < fs.length then some fs else none) = some fs
      rw [if_pos hlen]
  · intro h
    rw [load_storage_polygons, h]
  · intro c cs h _
    refine ⟨cs.foldl (fun m c2 => m ++ c2) c, ?_, ?_⟩
    · rw [load_storage_polygons, h]
    · rw [foldl_append_length cs c]
      simp

/-- Witness for C7 at a concrete outcome list: one accepted singleton asset,
one missing asset, one present-but-empty asset, one accepted two-element
asset; the merged set has size 1 + 2 = 3. -/
theorem asset_loader_accepts_witness :
    ([assetFeatA] ∈ acceptedCollections exAssetOutcomes ↔
      (AssetOutcome.resolved [assetFeatA] ∈ exAssetOutcomes ∧ 0 < [assetFeatA].length))
    ∧ ∃ merged, load_storage_polygons exAssetOutcomes = some merged
        ∧ merged.length =
          (([[assetFeatA], [assetFeatB, assetFeatC]] : List (List (Feature Nat))).map
            List.length).sum :=
  ⟨(asset_loader_accepts exAssetOutcomes).1 [assetFeatA],
    (asset_loader_accepts exAssetOutcomes).2.2 [assetFeatA] [[assetFeatB, assetFeatC]]
      (by decide) (by decide)⟩

/-- C8: if the anchor date's weekday differs from the reference weekday
(Wednesday, index 2), the script raises a configuration error and the result
carries no network action at all (backend initialization, asset loads and
imagery fetches all live in the `.ok` branch); if the weekday matches, no
such error is raised.  The configured anchor 2024-01-03 is a Wednesday. -/
theorem weekday_fail_fast (startOrd endOrd intervalDays : Nat) (assets : List String) :
    (pyWeekday startOrd ≠ EIA_RELEASE_WEEKDAY →
      runModule startOrd endOrd intervalDays assets = .error weekdayErrMsg)
    ∧ (pyWeekday startOrd = EIA_RELEASE_WEEKDAY →
      ∃ acts, runModule startOrd endOrd intervalDays assets = .ok acts)
    ∧ pyWeekday START_DATE = EIA_RELEASE_WEEKDAY := by
  refine ⟨?_, ?_, by decide⟩
  · intro h
    rw [runModule, if_pos h]
  · intro h
    exact ⟨_, by rw [runModule, if_neg (fun hne => hne h)]⟩

/-- Witness for C8: a Thursday anchor (2024-01-04) fails fast; the real
Wednesday anchor (2024-01-03) passes the guard. -/
theorem weekday_fail_fast_witness :
    runModule thursdayOrd END_DATE COMPOSITE_INTERVAL_DAYS [] = .error weekdayErrMsg
    ∧ ∃ acts, runModule START_DATE END_DATE COMPOSITE_INTERVAL_DAYS [] = .ok acts :=
  ⟨(weekday_fail_fast thursdayOrd END_DATE COMPOSITE_INTERVAL_DAYS []).1 (by decide),
    (weekday_fail_fast START_DATE END_DATE COMPOSITE_INTERVAL_DAYS []).2.1 (by decide)⟩

end GEEOil
